import Mathlib

/-!
Verification development for the `cors-anywhere` request-admission and
response-mediation pipeline (`lib/cors-anywhere.js`).

The JavaScript source is shallowly embedded: header objects become
association lists with JavaScript object semantics (insertion order,
in-place update), the URL-extraction regular expression is implemented as
an explicit backtracking matcher with the same alternative ordering and
laziness, and the request handler, CORS header synthesizer, redirect
mediator and error responder become pure Lean functions over explicit
state.
-/

namespace CorsAnywhere

/-! ## String helpers (ASCII models of the JavaScript string operations) -/

/-- ASCII lowercasing of one character, the fragment of
`String.prototype.toLowerCase` exercised by header names and hostnames. -/
def lowerChar (c : Char) : Char :=
  if 'A' ≤ c ∧ c ≤ 'Z' then Char.ofNat (c.toNat + 32) else c

/-- ASCII model of `String.prototype.toLowerCase`. -/
def lowerStr (s : String) : String :=
  (s.toList.map lowerChar).asString

/-- `s.startsWith(pre)` / anchored regex prefix test. -/
def strStartsWith (s pre : String) : Bool :=
  pre.toList.isPrefixOf s.toList

/-- `s.endsWith(suf)`. -/
def strEndsWith (s suf : String) : Bool :=
  suf.toList.isSuffixOf s.toList

/-- Case-insensitive prefix test (for regexes with the `i` flag). -/
def strStartsWithCI (s pre : String) : Bool :=
  strStartsWith (lowerStr s) (lowerStr pre)

/-- `s.slice(n)` on a character basis. -/
def strDrop (s : String) (n : Nat) : String :=
  (s.toList.drop n).asString

def isDigitChar (c : Char) : Bool := '0' ≤ c ∧ c ≤ '9'

def isAsciiAlphaChar (c : Char) : Bool :=
  ('a' ≤ c ∧ c ≤ 'z') ∨ ('A' ≤ c ∧ c ≤ 'Z')

/-! ## JavaScript object model for header maps

Node delivers header maps as plain objects with lowercased keys.  We model
them as association lists: property update keeps the insertion position of
an existing key and appends a fresh key at the end, exactly the enumeration
order `Object.keys` exposes. -/

abbrev Obj := List (String × String)

/-- Property read: `h[k]`, `undefined` becomes `none`. -/
def objGet (h : Obj) (k : String) : Option String :=
  match h with
  | [] => none
  | (k', v) :: t => if k' = k then some v else objGet t k

/-- `Object.prototype.hasOwnProperty.call(h, k)`. -/
def objHas (h : Obj) (k : String) : Bool :=
  (objGet h k).isSome

/-- Property write `h[k] = v`: update in place, else append. -/
def objSet (h : Obj) (k v : String) : Obj :=
  match h with
  | [] => [(k, v)]
  | (k', v') :: t => if k' = k then (k', v) :: t else (k', v') :: objSet t k v

/-- `delete h[k]`. -/
def objDelete (h : Obj) (k : String) : Obj :=
  h.filter (fun p => p.1 ≠ k)

/-- `Object.keys(h)`. -/
def objKeys (h : Obj) : List String :=
  h.map (·.1)

/-- JavaScript truthiness of a possibly-absent string value
(`undefined` and `''` are falsy). -/
def truthy (s : Option String) : Bool :=
  match s with
  | some v => v ≠ ""
  | none => false

/-! ## The parsed-URL data model (Node legacy `url.parse` output fields) -/

structure UrlObj where
  protocol : String
  hostname : String
  port : Option String
  host : String
  pathname : String
  search : String
  path : String
  href : String
deriving DecidableEq, Repr

/-- Model of Node's legacy `url.parse` (an external collaborator of the
source), restricted to the hierarchical `scheme://[auth@]host[:port]path`
inputs that `parseURL` hands it: protocol and hostname are lowercased, a
trailing `:digits` of the authority is split off as the port (a bare `:`
is dropped), the part after the last `@` of the authority is the host, an
empty pathname with a hostname becomes `/`, and `href` is reassembled from
the parsed fields.  Auth percent-encoding, invalid-hostname-label
truncation and IPv6 bracket stripping are outside the modelled fragment.
Failure modes surface as an empty `hostname`, which is what the caller
checks. -/
def urlParse (s : String) : UrlObj :=
  let cs := s.toList
  let protoLen := (cs.takeWhile (fun c =>
    isAsciiAlphaChar c ∨ isDigitChar c ∨ c = '.' ∨ c = '+' ∨ c = '-')).length
  let fail : UrlObj := ⟨"", "", none, "", "", "", "", s⟩
  if cs.get? protoLen = some ':' then
    let protocol := lowerStr (cs.take (protoLen + 1)).asString
    let rest := cs.drop (protoLen + 1)
    if rest.take 2 = ['/', '/'] then
      let rest := rest.drop 2
      let authority := rest.takeWhile (fun c => c ≠ '/' ∧ c ≠ '?' ∧ c ≠ '#')
      let restPath := rest.drop authority.length
      -- the host is everything after the last '@' of the authority
      let hostPart := ((authority.reverse.takeWhile (· ≠ '@')).reverse)
      let auth := authority.take (authority.length - hostPart.length)
      -- parseHost: strip a trailing /:[0-9]*$/
      let revHost := hostPart.reverse
      let revDigits := revHost.takeWhile isDigitChar
      let hasPortColon : Bool :=
        match revHost.drop revDigits.length with
        | ':' :: _ => true
        | _ => false
      let port : Option String :=
        if hasPortColon && !revDigits.isEmpty then some revDigits.reverse.asString else none
      let bareHost :=
        if hasPortColon then
          (revHost.drop (revDigits.length + 1)).reverse
        else hostPart
      let hostname := lowerStr bareHost.asString
      let beforeHash := restPath.takeWhile (· ≠ '#')
      let hash := (restPath.drop beforeHash.length).asString
      let pathname0 := (beforeHash.takeWhile (· ≠ '?')).asString
      let search := (beforeHash.drop pathname0.length).asString
      let pathname := if pathname0 = "" ∧ hostname ≠ "" then "/" else pathname0
      let host := hostname ++ (match port with | some p => ":" ++ p | none => "")
      let href := protocol ++ "//" ++ auth.asString ++ host ++ pathname ++ search ++ hash
      { protocol := protocol, hostname := hostname, port := port, host := host,
        pathname := pathname, search := search, path := pathname ++ search, href := href }
    else fail
  else fail

/-! ## The URL-extraction regular expression

`parseURL` matches
`/^(?:(https?:)?\/\/)?(([^\/?]+?)(?::(\d{0,5})(?=[\/?]|$))?)([\/?][\S\s]*|$)/i`.
`RegexGroups` records the capture groups; only `match[1]` (the protocol)
and `match[4]` (the port digits) are consulted by `parseURL`, but all are
kept for fidelity. -/

structure RegexGroups where
  protocol : Option String   -- group 1
  hostname : String          -- group 3
  portDigits : Option String -- group 4 (may be the empty string)
  pathPart : String          -- group 5
deriving DecidableEq, Repr

/-- At the current point (after the lazily grown hostname `acc`), try to
close the match: first the greedy optional `(?::(\d{0,5})(?=[\/?]|$))?`,
then group 5 (`[\/?][\S\s]*|$`). -/
def regexTryStop (acc : List Char) (rest : List Char) :
    Option RegexGroups :=
  if acc = [] then none
  else
    let hostname := acc.reverse.asString
    match rest with
    | ':' :: r =>
      -- port alternative: all leading digits must be taken (backtracking
      -- into fewer digits re-fails the lookahead on a digit), at most 5,
      -- with `[\/?]` or end-of-input after them
      let ds := r.takeWhile isDigitChar
      let after := r.drop ds.length
      if ds.length ≤ 5 ∧ (after = [] ∨ after.head? = some '/' ∨ after.head? = some '?') then
        some ⟨none, hostname, some ds.asString, after.asString⟩
      else
        -- no port; group 5 must match `rest`, which starts with ':' — impossible
        none
    | [] => some ⟨none, hostname, none, ""⟩
    | c :: _ =>
      if c = '/' ∨ c = '?' then some ⟨none, hostname, none, rest.asString⟩ else none

/-- Lazy `[^\/?]+?` hostname: stop as early as possible, extending one
non-`/`-non-`?` character at a time while the rest of the pattern fails. -/
def regexHostLoop (acc : List Char) (rest : List Char) : Option RegexGroups :=
  match regexTryStop acc rest with
  | some g => some g
  | none =>
    match rest with
    | [] => none
    | c :: t =>
      if c = '/' ∨ c = '?' then none
      else regexHostLoop (c :: acc) t

/-- The full pattern.  The three possible prefixes
(`https://`, `http://` — case-insensitive — and `//`) are mutually
exclusive on any input, so trying them in order followed by the bare
alternative reproduces the engine's backtracking. -/
def corsRegexMatch (s : String) : Option RegexGroups :=
  let cs := s.toList
  if strStartsWithCI s "https://" then
    match regexHostLoop [] (cs.drop 8) with
    | some g => some { g with protocol := some (cs.take 6).asString }
    | none => (regexHostLoop [] cs)
  else if strStartsWithCI s "http://" then
    match regexHostLoop [] (cs.drop 7) with
    | some g => some { g with protocol := some (cs.take 5).asString }
    | none => (regexHostLoop [] cs)
  else if strStartsWith s "//" then
    match regexHostLoop [] (cs.drop 2) with
    | some g => some g
    | none => (regexHostLoop [] cs)
  else regexHostLoop [] cs

/-- `req_url.replace(/^http(s?):\/(?!\/)/, 'http$1://')` — the fork's
workaround for intermediaries that collapse `//` to `/` (case-sensitive,
anchored). -/
def fixCollapsedSlash (s : String) : String :=
  if strStartsWith s "https:/" ∧ ¬ strStartsWith s "https://" then
    "https://" ++ strDrop s 7
  else if strStartsWith s "http:/" ∧ ¬ strStartsWith s "http://" then
    "http://" ++ strDrop s 6
  else s

/-- `/^https?:/i.test(u)`. -/
def startsWithHttpSchemeCI (u : String) : Bool :=
  strStartsWithCI u "http:" ∨ strStartsWithCI u "https:"

/-- `parseURL` from the source: collapsed-slash repair, regex match,
scheme synthesis for scheme-less input (https iff the matched port digits
are exactly `443`), then `url.parse`, rejecting a missing hostname. -/
def parseURL (req_url : String) : Option UrlObj :=
  let u := fixCollapsedSlash req_url
  match corsRegexMatch u with
  | none => none
  | some g =>
    let u2 :=
      match g.protocol with
      | some _ => some u
      | none =>
        if startsWithHttpSchemeCI u then
          -- the pattern mistakenly parsed "http:///"-like input
          none
        else
          let u' := if strStartsWith u "//" then u else "//" ++ u
          some ((if g.portDigits = some "443" then "https:" else "http:") ++ u')
    match u2 with
    | none => none
    | some u3 =>
      let parsed := urlParse u3
      if parsed.hostname = "" then none else some parsed

/-! ## Inbound request model -/

structure Req where
  method : String
  url : String
  headers : Obj
  encrypted : Bool := false
deriving DecidableEq, Repr

/-! ## CORS header synthesizer (`withCORS`)

The source mutates both the response-header object and `request.headers`;
the model threads the pair through.  `withCORSPre` is the part of the
function before the `access-control-expose-headers` line, split out so
that the exposed-header list can be talked about at the point where
`Object.keys(headers)` is evaluated. -/

/-- One `if (request.headers[reqKey]) { headers[resKey] = ...; delete
request.headers[reqKey]; }` block of `withCORS`, acting on the
(response-headers, request-headers) pair. -/
def mirrorHeader (hrh : Obj × Obj) (reqKey resKey : String) : Obj × Obj :=
  match objGet hrh.2 reqKey with
  | some v =>
    if v ≠ "" then (objSet hrh.1 resKey v, objDelete hrh.2 reqKey) else hrh
  | none => hrh

def withCORSPre (headers : Obj) (req : Req) (corsMaxAge : Nat) : Obj × Obj :=
  let h := objSet headers "access-control-allow-origin" "*"
  let h :=
    if req.method = "OPTIONS" ∧ corsMaxAge ≠ 0 then
      objSet h "access-control-max-age" (toString corsMaxAge)
    else h
  mirrorHeader
    (mirrorHeader (h, req.headers)
      "access-control-request-method" "access-control-allow-methods")
    "access-control-request-headers" "access-control-allow-headers"

def withCORS (headers : Obj) (req : Req) (corsMaxAge : Nat) : Obj × Obj :=
  let pre := withCORSPre headers req corsMaxAge
  let h := pre.1
  let h := objSet h "access-control-expose-headers" (String.intercalate "," (objKeys h))
  let h := objSet h "access-control-allow-credentials" "true"
  (h, pre.2)

/-! ## Hostname policy checker -/

def splitOnChar (c : Char) (l : List Char) : List (List Char) :=
  match l with
  | [] => [[]]
  | x :: t =>
    let r := splitOnChar c t
    if x = c then [] :: r
    else
      match r with
      | [] => [[x]]
      | h :: t' => (x :: h) :: t'

def digitsToNat (l : List Char) : Nat :=
  l.foldl (fun a c => a * 10 + (c.toNat - 48)) 0

/-- Modelled from the spec: the repository file `regexp-top-level-domain.js`
(required as `./regexp-top-level-domain`) is not under `src/`.  Per §4.2 a
hostname passes the pattern when it is a plausible public DNS name with a
known-shape top-level label: at least two non-empty dot-separated labels
whose last label is purely alphabetic of length at least two. -/
def regexpTldTest (hostname : String) : Bool :=
  let labels := splitOnChar '.' hostname.toList
  labels.length ≥ 2 && labels.all (fun lab => !lab.isEmpty) &&
    (match labels.getLast? with
     | some lab => lab.all isAsciiAlphaChar && lab.length ≥ 2
     | none => false)

/-- Modelled from the spec: `net.isIPv4` is a Node built-in collaborator —
a literal IPv4 address is four dot-separated decimal parts, each at most
three digits with value at most 255. -/
def isIPv4 (s : String) : Bool :=
  let parts := splitOnChar '.' s.toList
  parts.length = 4 && parts.all (fun p =>
    !p.isEmpty && p.all isDigitChar && p.length ≤ 3 && digitsToNat p ≤ 255)

/-- Modelled from the spec: `net.isIPv6` is a Node built-in collaborator —
a literal IPv6 address is modelled as hexadecimal digits and at least two
colons (covering the forms the gate can meet; the heuristic only rejects
obviously-non-proxyable names). -/
def isIPv6 (s : String) : Bool :=
  let cs := s.toList
  (cs.filter (· = ':')).length ≥ 2 &&
    cs.all (fun c => isDigitChar c ∨ ('a' ≤ c ∧ c ≤ 'f') ∨ ('A' ≤ c ∧ c ≤ 'F') ∨ c = ':')

/-- `isValidHostName` from the source: TLD pattern, IPv4 literal or IPv6
literal. -/
def isValidHostName (hostname : String) : Bool :=
  regexpTldTest hostname || isIPv4 hostname || isIPv6 hostname

/-! ## Configuration and the access-control gate -/

/-- The raw `requireHeader` option: a string, an array, or absent. -/
inductive RequireHeaderOpt where
  | null
  | str (s : String)
  | list (l : List String)
deriving DecidableEq, Repr

/-- The option normalization at the top of `getHandler`: a truthy string
becomes a singleton lowercase list, an empty or non-array value becomes
`null`, an array is lowercased elementwise. -/
def normalizeRequireHeader : RequireHeaderOpt → Option (List String)
  | .null => none
  | .str s => if s = "" then none else some [lowerStr s]
  | .list l => if l.isEmpty then none else some (l.map lowerStr)

def hasRequiredHeaders (requireHeader : Option (List String)) (headers : Obj) : Bool :=
  match requireHeader with
  | none => true
  | some l => l.any (fun headerName => objHas headers headerName)

structure Config where
  handleInitialRequest : Option (Req → Option UrlObj → Bool) := none
  maxRedirects : Nat := 5
  targetBlacklist : List String := []
  targetWhitelist : List String := []
  originBlacklist : List String := []
  originWhitelist : List String := []
  checkRateLimit : Option (String → Option String) := none
  redirectSameOrigin : Bool := false
  requireHeader : RequireHeaderOpt := .null
  removeHeaders : List String := []
  setHeaders : List (String × String) := []
  corsMaxAge : Nat := 0

/-- The per-request state (`req.corsAnywhereRequestState`).  The transport
hooks (`getProxyForUrl`, `dnsLookup`) only affect outbound routing and are
not part of the mediated behaviour modelled here. -/
structure RequestState where
  maxRedirects : Nat
  corsMaxAge : Nat
  location : UrlObj
  proxyBaseUrl : String
  redirectCount_ : Nat := 0
deriving DecidableEq, Repr

/-- What the request handler does with an inbound request: write a
response, hand it to `handleInitialRequest`, serve the help text, or
forward it to the proxy engine. -/
inductive HandlerResult where
  | response (status : Nat) (phrase : String) (headers : Obj) (body : String)
  | hookHandled
  | help (headers : Obj)
  | forward (state : RequestState) (req : Req)
deriving DecidableEq, Repr

def HandlerResult.statusOf : HandlerResult → Option Nat
  | .response s _ _ _ => some s
  | _ => none

def HandlerResult.isForward : HandlerResult → Bool
  | .forward _ _ => true
  | _ => false

/-- `/^\/https?:\/[^/]/i.test(u)` — the "missing slash after the scheme"
diagnostic pattern. -/
def missingSlashPattern (u : String) : Bool :=
  (strStartsWithCI u "/http:/" && !strStartsWithCI u "/http://" && (u.toList.get? 7).isSome)
  || (strStartsWithCI u "/https:/" && !strStartsWithCI u "/https://" && (u.toList.get? 8).isSome)

/-- `/^\/https?:/.test(u)` (case-sensitive). -/
def explicitSchemeStart (u : String) : Bool :=
  strStartsWith u "/http:" || strStartsWith u "/https:"

/-- `location.port > 65535`: JavaScript coerces the port string to a
number; an absent port compares false. -/
def portTooLarge (l : UrlObj) : Bool :=
  match l.port with
  | some p => digitsToNat p.toList > 65535
  | none => false

/-- The target-blacklist gate exactly as in the source:
reject when no blacklisted domain satisfies
`hostname !== domain || hostname.endsWith('.' + domain)`. -/
def targetBlacklistRejects (bl : List String) (hostnameRaw : String) : Bool :=
  !bl.isEmpty &&
    (let hostname := lowerStr hostnameRaw
     !(bl.any (fun dom =>
        let domain := lowerStr dom
        hostname != domain || strEndsWith hostname ("." ++ domain))))

/-- The target-whitelist gate: reject when no whitelisted domain satisfies
`hostname === domain || hostname.endsWith('.' + domain)`. -/
def targetWhitelistRejects (wl : List String) (hostnameRaw : String) : Bool :=
  !wl.isEmpty &&
    (let hostname := lowerStr hostnameRaw
     !(wl.any (fun dom =>
        let domain := lowerStr dom
        hostname == domain || strEndsWith hostname ("." ++ domain))))

/-- `/^\s*https/.test(xForwardedProto)` (absent header never matches). -/
def xfpHttps (v : Option String) : Bool :=
  match v with
  | some s => strStartsWith (s.toList.dropWhile (fun c =>
      c = ' ' ∨ c = '\t' ∨ c = '\n' ∨ c = '\x0d' ∨ c = '\x0c' ∨ c = '\x0b')).asString "https"
  | none => false

/-- The origin-dependent tail of the handler, from the origin-blacklist
check to admission, with the computed origin string
(`req.headers.origin || ''`) as an explicit parameter (split out purely
for proof modularity): origin blacklist/whitelist, target
blacklist/whitelist, rate limit, same-origin offload, and finally the
hand-off to the forwarding engine, in source order. -/
def originPhase (cfg : Config) (cors_headers : Obj) (req : Req)
    (location : UrlObj) (origin : String) : HandlerResult :=
  if origin ∈ cfg.originBlacklist then
    .response 403 "Forbidden" cors_headers
      ("The origin \"" ++ origin ++ "\" was blacklisted by the operator of this proxy.")
  else if cfg.originWhitelist ≠ [] ∧ origin ∉ cfg.originWhitelist then
    .response 403 "Forbidden" cors_headers
      ("The origin \"" ++ origin ++ "\" was not whitelisted by the operator of this proxy.")
  else if targetBlacklistRejects cfg.targetBlacklist location.hostname then
    .response 403 "Forbidden" cors_headers
      ("The target URL hostname \"" ++ location.hostname
        ++ "\" is not allowed by this proxy.")
  else if targetWhitelistRejects cfg.targetWhitelist location.hostname then
    .response 403 "Forbidden" cors_headers
      ("The target URL hostname \"" ++ location.hostname
        ++ "\" is not allowed by this proxy.")
  else
    let rateLimitMessage : Option String :=
      match cfg.checkRateLimit with
      | some f => f origin
      | none => none
    if truthy rateLimitMessage then
      .response 429 "Too Many Requests" cors_headers
        ("The origin \"" ++ origin ++ "\" has sent too many requests.\n"
          ++ rateLimitMessage.getD "")
    else if cfg.redirectSameOrigin ∧ origin ≠ ""
        ∧ location.href.toList.get? origin.length = some '/'
        ∧ strStartsWith location.href origin then
      .response 301 "Please use a direct request"
        (objSet (objSet (objSet cors_headers "vary" "origin")
          "cache-control" "private") "location" location.href) ""
    else
      let isRequestedOverHttps :=
        req.encrypted || xfpHttps (objGet req.headers "x-forwarded-proto")
      let proxyBaseUrl :=
        (if isRequestedOverHttps then "https://" else "http://")
          ++ (objGet req.headers "host").getD "undefined"
      let headers1 := cfg.removeHeaders.foldl objDelete req.headers
      let headers2 := cfg.setHeaders.foldl (fun h p => objSet h p.1 p.2) headers1
      .forward
        { maxRedirects := cfg.maxRedirects, corsMaxAge := cfg.corsMaxAge,
          location := location, proxyBaseUrl := proxyBaseUrl, redirectCount_ := 0 }
        { req with headers := headers2 }

/-- The tail of the request handler once a target URL has been extracted:
the `iscorsneeded` probe, port range, hostname routability, required
headers, then the origin-dependent checks of `originPhase`, in source
order. -/
def admitTarget (cfg : Config) (requireHeader : Option (List String))
    (cors_headers : Obj) (req : Req) (location : UrlObj) : HandlerResult :=
  if location.host = "iscorsneeded" then
    .response 200 "" [("Content-Type", "text/plain")] "no"
  else if portTooLarge location then
    .response 400 "Invalid port" cors_headers
      ("Port number too large: " ++ location.port.getD "")
  else if ¬ explicitSchemeStart req.url ∧ ¬ isValidHostName location.hostname then
    .response 404 "Invalid host" cors_headers ("Invalid host: " ++ location.hostname)
  else if ¬ hasRequiredHeaders requireHeader req.headers then
    .response 400 "Header required" cors_headers
      ("Missing required request header. Must specify one of: "
        ++ String.intercalate "," (requireHeader.getD []))
  else
    originPhase cfg cors_headers req location ((objGet req.headers "origin").getD "")

/-- The request handler produced by `getHandler`, check for check in source
order: preflight, URL extraction, the `handleInitialRequest` hook, the
help/missing-slash fallback, then `admitTarget`. -/
def getHandler (cfg : Config) (req0 : Req) : HandlerResult :=
  let requireHeader := normalizeRequireHeader cfg.requireHeader
  let cw := withCORS [] req0 cfg.corsMaxAge
  let cors_headers := cw.1
  let req : Req := { req0 with headers := cw.2 }
  if req.method = "OPTIONS" then
    .response 200 "" cors_headers ""
  else
    let location := parseURL (strDrop req.url 1)
    if (match cfg.handleInitialRequest with
        | some f => f req location
        | none => false) then
      .hookHandled
    else
      match location with
      | none =>
        if missingSlashPattern req.url then
          .response 400 "Missing slash" cors_headers
            "The URL is invalid: two slashes are needed after the http(s):."
        else
          .help cors_headers
      | some location =>
        admitTarget cfg requireHeader cors_headers req location

/-! ## Response mediation and the redirect state machine -/

/-- The response from the target of the current outbound exchange. -/
structure ProxyRes where
  statusCode : Nat
  headers : Obj
deriving DecidableEq, Repr

/-- The client-facing response object: whether headers have been flushed,
and the headers staged on it via `res.setHeader`. -/
structure Res where
  headersSent : Bool
  headers : Obj
deriving DecidableEq, Repr

/-- The directory part of a pathname (up to and including the last `/`). -/
def dirOf (p : String) : String :=
  let cs := p.toList.reverse
  ((cs.drop (cs.takeWhile (· ≠ '/')).length).reverse).asString

/-- Model of Node's `url.resolve` (an external collaborator), covering the
absolute, protocol-relative, host-relative and path-relative target forms;
dot-segment normalization is outside the modelled fragment.  Only the
absolute case is relied on concretely. -/
def urlResolve (base target : String) : String :=
  let b := urlParse base
  if strStartsWithCI target "http://" ∨ strStartsWithCI target "https://" then
    (urlParse target).href
  else if strStartsWith target "//" then
    (urlParse (b.protocol ++ target)).href
  else if strStartsWith target "/" then
    b.protocol ++ "//" ++ b.host ++ target
  else if target = "" then
    b.href
  else
    b.protocol ++ "//" ++ b.host ++ dirOf b.pathname ++ target

/-- What one invocation of `onProxyResponse` decides: pipe the (modified)
target response through to the client, or abort it and re-issue the
outbound request at a new location. -/
inductive ProxyStep where
  | pipe (proxyResHeaders : Obj) (res : Res) (state : RequestState) (req : Req)
  | follow (state : RequestState) (req : Req) (res : Res)
deriving DecidableEq, Repr

def ProxyStep.isFollow : ProxyStep → Bool
  | .follow _ _ _ => true
  | _ => false

def ProxyStep.pipedHeaders : ProxyStep → Obj
  | .pipe h _ _ _ => h
  | .follow _ _ _ => []

/-- The final header treatment before piping: strip `set-cookie` and
`set-cookie2`, stamp `x-final-url`, then `withCORS` (which also mutates
the request headers). -/
def finalizeProxyHeaders (state : RequestState) (req : Req) (h : Obj) : Obj × Obj :=
  let h := objDelete h "set-cookie"
  let h := objDelete h "set-cookie2"
  let h := objSet h "x-final-url" state.location.href
  withCORS h req state.corsMaxAge

/-- `onProxyResponse` from the source.  `redirectCount_` starts at `0`
(the source leaves it `undefined`, which its `!requestState.redirectCount_`
test and `redirectCount_ + 1 || 1` increment treat exactly like `0`). -/
def onProxyResponse (state : RequestState) (req : Req) (res : Res)
    (proxyRes : ProxyRes) : ProxyStep :=
  let statusCode := proxyRes.statusCode
  let res :=
    if ¬ res.headersSent ∧ state.redirectCount_ = 0 then
      { res with headers := objSet res.headers "x-request-url" state.location.href }
    else res
  let finish : RequestState → Obj → ProxyStep := fun state h =>
    let pr := finalizeProxyHeaders state req h
    .pipe pr.1 res state { req with headers := pr.2 }
  if statusCode = 301 ∨ statusCode = 302 ∨ statusCode = 303
      ∨ statusCode = 307 ∨ statusCode = 308 then
    match objGet proxyRes.headers "location" with
    | some lh =>
      if lh ≠ "" then
        let locationHeader := urlResolve state.location.href lh
        match parseURL locationHeader with
        | some parsedLocation =>
          if statusCode = 301 ∨ statusCode = 302 ∨ statusCode = 303 then
            -- `redirectCount_ = redirectCount_ + 1 || 1` (increment happens
            -- even when the hop limit then stops the follow)
            let newCount := state.redirectCount_ + 1
            let state := { state with redirectCount_ := newCount }
            if newCount ≤ state.maxRedirects then
              let redirHeader :=
                objSet res.headers ("X-CORS-Redirect-" ++ toString newCount)
                  (toString statusCode ++ " " ++ locationHeader)
              let res :=
                if ¬ res.headersSent then { res with headers := redirHeader } else res
              let reqHeaders :=
                objDelete (objSet req.headers "content-length" "0") "content-type"
              let req := { req with method := "GET", headers := reqHeaders }
              .follow { state with location := parsedLocation } req res
            else
              finish state (objSet proxyRes.headers "location"
                (state.proxyBaseUrl ++ "/" ++ locationHeader))
          else
            finish state (objSet proxyRes.headers "location"
              (state.proxyBaseUrl ++ "/" ++ locationHeader))
        | none => finish state proxyRes.headers
      else finish state proxyRes.headers
    | none => finish state proxyRes.headers
  else finish state proxyRes.headers

/-- The outcome of a whole admitted exchange: the status and headers piped
to the client, the final mutable state, and how many outbound exchanges
took place. -/
structure FinalOutcome where
  statusCode : Nat
  proxyResHeaders : Obj
  res : Res
  state : RequestState
  req : Req
  exchanges : Nat
deriving Repr

/-- The forwarding loop: each outbound exchange asks `upstream` for the
target's response at the current location and feeds it to
`onProxyResponse`; a `follow` re-enters the loop.  `fuel` bounds the
recursion so the loop is a total function; the termination theorem shows
`maxRedirects + 1` fuel always suffices. -/
def runProxy (upstream : Nat → UrlObj → ProxyRes) (fuel : Nat) (hop : Nat)
    (state : RequestState) (req : Req) (res : Res) : Option FinalOutcome :=
  match fuel with
  | 0 => none
  | fuel + 1 =>
    let pres := upstream hop state.location
    match onProxyResponse state req res pres with
    | .pipe h res' st' req' =>
      some ⟨pres.statusCode, h, res', st', req', hop + 1⟩
    | .follow st' req' res' => runProxy upstream fuel (hop + 1) st' req' res'

/-! ## Error/fallback responder (`createServer`'s default `error` listener) -/

inductive ErrorAction where
  | endResponse
  | alreadyEnded
  | respond (status : Nat) (headers : Obj) (body : String)
deriving DecidableEq, Repr

def ErrorAction.statusOf : ErrorAction → Option Nat
  | .respond s _ _ => some s
  | _ => none

/-- The default `proxy.on('error', ...)` listener installed by
`createServer` when no `customListeners` are configured: with headers
already sent the response is only ended; otherwise every previously set
header is removed and a `404` with the minimal CORS header and a
diagnostic body is written. -/
def proxyErrorHandler (res : Res) (writableEnded : Bool) (err : String) : ErrorAction :=
  if res.headersSent then
    if writableEnded = false then .endResponse else .alreadyEnded
  else
    let cleared := (objKeys res.headers).foldl objDelete res.headers
    .respond 404 (objSet cleared "Access-Control-Allow-Origin" "*")
      ("Not found because of proxy error: " ++ err)

/-! ## Concrete fixtures used by the scenario theorems -/

/-- A plain admitted-style request for a path-embedded target. -/
def plainReq (u : String) : Req :=
  { method := "GET", url := u, headers := [("host", "proxy.test")] }

/-- Scenario configuration with a one-element target blacklist and every
other policy at its default. -/
def blacklistCfg : Config := { targetBlacklist := ["evil.com"] }

/-- Configuration for the gate-ordering scenario: a required header and a
blacklisted origin. -/
def orderingCfg : Config :=
  { requireHeader := .list ["X-Requested-With"],
    originBlacklist := ["http://evil.example"] }

/-- A request violating both the required-header policy and the origin
blacklist of `orderingCfg`, aimed at the reserved probe path. -/
def orderingProbeReq : Req :=
  { method := "GET", url := "/iscorsneeded",
    headers := [("origin", "http://evil.example")] }

/-- A request violating both policies of `orderingCfg`, aimed at an
ordinary routable target. -/
def orderingPlainReq : Req :=
  { method := "GET", url := "/example.com/x",
    headers := [("origin", "http://evil.example"), ("host", "proxy.test")] }

/-- The admitted per-request state for `GET /example.com` behind
`proxy.test` with all-default configuration. -/
def selfRedirectState : RequestState :=
  { maxRedirects := 5, corsMaxAge := 0,
    location := (parseURL "example.com").getD ⟨"", "", none, "", "", "", "", ""⟩,
    proxyBaseUrl := "http://proxy.test" }

/-- A target that always replies `302` pointing at itself. -/
def selfRedirect302 : Nat → UrlObj → ProxyRes :=
  fun _hop loc => ⟨302, [("location", loc.href)]⟩

/-- The full mediated exchange for the self-redirecting target, with
enough fuel for `maxRedirects + 1` outbound exchanges. -/
def selfRedirectRun : Option FinalOutcome :=
  runProxy selfRedirect302 6 0 selfRedirectState (plainReq "/example.com") ⟨false, []⟩

/-- A minimal admitted state towards target `http://x/`. -/
def tinyState : RequestState :=
  ⟨5, 0, ⟨"http:", "x", none, "x", "/", "", "/", "http://x/"⟩, "http://p", 0⟩

def tinyReq : Req := ⟨"GET", "/x", [], false⟩

/-- A target response that tries to set cookies. -/
def cookieProxyRes : ProxyRes :=
  ⟨200, [("set-cookie", "a"), ("set-cookie2", "b")]⟩

/-- The headers `onProxyResponse` pipes through for `cookieProxyRes`. -/
def cookiePipedHeaders : Obj :=
  [("x-final-url", "http://x/"), ("access-control-allow-origin", "*"),
   ("access-control-expose-headers", "x-final-url,access-control-allow-origin"),
   ("access-control-allow-credentials", "true")]

/-- The scheme/host components of a Target (everything up to the path),
for "equal up to path" comparisons. -/
def targetCore (t : UrlObj) : String × String × Option String × String :=
  (t.protocol, t.hostname, t.port, t.host)

/-- A plain `GET` request with no special headers, for exercising
`withCORS` alone. -/
def corsReqGet : Req := { method := "GET", url := "/x", headers := [] }

/-- Configuration whose `handleInitialRequest` hook always claims the
request. -/
def hookCfg : Config := { handleInitialRequest := some (fun _r _l => true) }

/-- An `OPTIONS` request for a routable target. -/
def optionsReq : Req := { method := "OPTIONS", url := "/example.com", headers := [] }

def HandlerResult.bodyOf : HandlerResult → Option String
  | .response _ _ _ b => some b
  | _ => none

/-- The response-header trace `k` further self-redirect follows leave on
`res`: starting from count `c`, each follow `i` runs
`res.setHeader('X-CORS-Redirect-' + (c+i), '302 ' + href)`. -/
def stampFold (href : String) (resH : Obj) (c : Nat) : Nat -> Obj
  | 0 => resH
  | k + 1 =>
    stampFold href
      (objSet resH ("X-CORS-Redirect-" ++ toString (c + 1)) ("302 " ++ href))
      (c + 1) k

/-! ## Basic lemmas about the object model -/

theorem objGet_objSet_eq (h : Obj) (k v : String) :
    objGet (objSet h k v) k = some v := by
  induction h with
  | nil => simp [objSet, objGet]
  | cons p t ih =>
    obtain ⟨k', v'⟩ := p
    by_cases hp : k' = k
    · simp [objSet, objGet, hp]
    · simp [objSet, objGet, hp, ih]

theorem objGet_objSet_ne (h : Obj) (k v k' : String) (hne : k' ≠ k) :
    objGet (objSet h k v) k' = objGet h k' := by
  have hkk : k ≠ k' := Ne.symm hne
  induction h with
  | nil => simp [objSet, objGet, hkk]
  | cons p t ih =>
    obtain ⟨k₀, v₀⟩ := p
    by_cases hp : k₀ = k
    · subst hp
      simp [objSet, objGet, hkk]
    · simp [objSet, objGet, hp, ih]

theorem objGet_objDelete_eq (h : Obj) (k : String) :
    objGet (objDelete h k) k = none := by
  induction h with
  | nil => simp [objDelete, objGet]
  | cons p t ih =>
    obtain ⟨k₀, v₀⟩ := p
    by_cases hp : k₀ = k
    · simpa [objDelete, objGet, hp] using ih
    · simpa [objDelete, objGet, hp] using ih

theorem objGet_objDelete_ne (h : Obj) (k k' : String) (hne : k' ≠ k) :
    objGet (objDelete h k) k' = objGet h k' := by
  have hkk : k ≠ k' := Ne.symm hne
  induction h with
  | nil => simp [objDelete, objGet]
  | cons p t ih =>
    obtain ⟨k₀, v₀⟩ := p
    by_cases hp : k₀ = k
    · subst hp
      simpa [objDelete, objGet, hkk] using ih
    · have ih' : objGet (List.filter (fun p => !decide (p.1 = k)) t) k' = objGet t k' := by
        simpa [objDelete] using ih
      simp [objDelete, objGet, hp, ih']

/-- Folding `delete` over a superset of an object's own keys empties it. -/
theorem foldl_objDelete_of_keys_mem (ks : List String) (g : Obj)
    (hg : ∀ p ∈ g, p.1 ∈ ks) : ks.foldl objDelete g = [] := by
  induction ks generalizing g with
  | nil =>
    cases g with
    | nil => rfl
    | cons p t => exact absurd (hg p (by simp)) (by simp)
  | cons k ks ih =>
    simp only [List.foldl_cons]
    apply ih
    intro p hp
    have hmem : p ∈ g ∧ p.1 ≠ k := by
      simpa [objDelete, List.mem_filter] using hp
    rcases List.mem_cons.mp (hg p hmem.1) with hh | hh
    · exact absurd hh hmem.2
    · exact hh

theorem foldl_objDelete_objKeys (h : Obj) :
    (objKeys h).foldl objDelete h = [] :=
  foldl_objDelete_of_keys_mem (objKeys h) h (fun _p hp => List.mem_map_of_mem _ hp)

/-! ## Lemmas about `withCORS` -/

theorem objGet_mirrorHeader_fst (hrh : Obj × Obj) (rk sk k : String)
    (hk : k ≠ sk) :
    objGet (mirrorHeader hrh rk sk).1 k = objGet hrh.1 k := by
  unfold mirrorHeader
  cases hm : objGet hrh.2 rk with
  | none => rfl
  | some v =>
    by_cases hv : v = ""
    · simp [hv]
    · simp [hv, objGet_objSet_ne _ _ _ _ hk]

theorem objGet_mirrorHeader_snd (hrh : Obj × Obj) (rk sk k : String)
    (hk : k ≠ rk) :
    objGet (mirrorHeader hrh rk sk).2 k = objGet hrh.2 k := by
  unfold mirrorHeader
  cases hm : objGet hrh.2 rk with
  | none => rfl
  | some v =>
    by_cases hv : v = ""
    · simp [hv]
    · simp [hv, objGet_objDelete_ne _ _ _ hk]

/-- Keys other than the six CORS response keys pass through `withCORS`
unchanged. -/
theorem objGet_withCORSPre (h : Obj) (req : Req) (c : Nat) (k : String)
    (h1 : k ≠ "access-control-allow-origin")
    (h2 : k ≠ "access-control-max-age")
    (h3 : k ≠ "access-control-allow-methods")
    (h4 : k ≠ "access-control-allow-headers") :
    objGet (withCORSPre h req c).1 k = objGet h k := by
  unfold withCORSPre
  rw [objGet_mirrorHeader_fst _ _ _ _ h4, objGet_mirrorHeader_fst _ _ _ _ h3]
  split <;> simp [objGet_objSet_ne _ _ _ _ h1, objGet_objSet_ne _ _ _ _ h2]

theorem objGet_withCORS (h : Obj) (req : Req) (c : Nat) (k : String)
    (h1 : k ≠ "access-control-allow-origin")
    (h2 : k ≠ "access-control-max-age")
    (h3 : k ≠ "access-control-allow-methods")
    (h4 : k ≠ "access-control-allow-headers")
    (h5 : k ≠ "access-control-expose-headers")
    (h6 : k ≠ "access-control-allow-credentials") :
    objGet (withCORS h req c).1 k = objGet h k := by
  unfold withCORS
  simp only [objGet_objSet_ne _ _ _ _ h5, objGet_objSet_ne _ _ _ _ h6]
  exact objGet_withCORSPre h req c k h1 h2 h3 h4

theorem objGet_withCORSPre_acao (h : Obj) (req : Req) (c : Nat) :
    objGet (withCORSPre h req c).1 "access-control-allow-origin" = some "*" := by
  unfold withCORSPre
  rw [objGet_mirrorHeader_fst _ _ _ _ (by decide),
    objGet_mirrorHeader_fst _ _ _ _ (by decide)]
  split
  · rw [objGet_objSet_ne _ _ _ _ (by decide), objGet_objSet_eq]
  · rw [objGet_objSet_eq]

/-- Request-header keys other than the two mirrored
`access-control-request-*` keys pass through `withCORS` unchanged. -/
theorem objGet_withCORS_snd (h : Obj) (req : Req) (c : Nat) (k : String)
    (h1 : k ≠ "access-control-request-method")
    (h2 : k ≠ "access-control-request-headers") :
    objGet (withCORS h req c).2 k = objGet req.headers k := by
  unfold withCORS withCORSPre
  rw [objGet_mirrorHeader_snd _ _ _ _ h2, objGet_mirrorHeader_snd _ _ _ _ h1]

/-- Under the hypotheses that the request is not a preflight, no hook is
configured and the target URL extracts, the handler reduces to
`admitTarget` on the CORS-mutated request. -/
theorem getHandler_reaches_admitTarget (cfg : Config) (req : Req) (loc : UrlObj)
    (hm : req.method ≠ "OPTIONS")
    (hhook : cfg.handleInitialRequest = none)
    (hloc : parseURL (strDrop req.url 1) = some loc) :
    getHandler cfg req
      = admitTarget cfg (normalizeRequireHeader cfg.requireHeader)
          (withCORS [] req cfg.corsMaxAge).1
          { req with headers := (withCORS [] req cfg.corsMaxAge).2 } loc := by
  unfold getHandler
  rw [hhook]
  simp only [hm]
  simp only [hloc]
  simp [hm]


/-! ## Lemmas about the response mediator -/

theorem finalize_no_set_cookie (st : RequestState) (req : Req) (h : Obj) :
    objGet (finalizeProxyHeaders st req h).1 "set-cookie" = none
  ∧ objGet (finalizeProxyHeaders st req h).1 "set-cookie2" = none := by
  unfold finalizeProxyHeaders
  constructor
  · rw [objGet_withCORS _ _ _ _ (by decide) (by decide) (by decide) (by decide)
      (by decide) (by decide)]
    rw [objGet_objSet_ne _ _ _ _ (by decide)]
    rw [objGet_objDelete_ne _ _ _ (by decide)]
    exact objGet_objDelete_eq h "set-cookie"
  · rw [objGet_withCORS _ _ _ _ (by decide) (by decide) (by decide) (by decide)
      (by decide) (by decide)]
    rw [objGet_objSet_ne _ _ _ _ (by decide)]
    exact objGet_objDelete_eq _ "set-cookie2"

theorem finalize_location (st : RequestState) (req : Req) (h : Obj) :
    objGet (finalizeProxyHeaders st req h).1 "location" = objGet h "location" := by
  unfold finalizeProxyHeaders
  rw [objGet_withCORS _ _ _ _ (by decide) (by decide) (by decide) (by decide)
    (by decide) (by decide)]
  rw [objGet_objSet_ne _ _ _ _ (by decide)]
  rw [objGet_objDelete_ne _ _ _ (by decide), objGet_objDelete_ne _ _ _ (by decide)]

/-- Every result of `onProxyResponse` is either a follow or a pipe of
finalized (cookie-stripped) headers. -/
theorem onProxyResponse_no_cookie (state : RequestState) (req : Req) (res : Res)
    (proxyRes : ProxyRes) :
    (onProxyResponse state req res proxyRes).isFollow = true
  ∨ (objGet (onProxyResponse state req res proxyRes).pipedHeaders "set-cookie" = none
     ∧ objGet (onProxyResponse state req res proxyRes).pipedHeaders "set-cookie2" = none) := by
  unfold onProxyResponse
  simp only []
  split
  · split
    · split
      · split
        · split
          · split
            · left; rfl
            · right
              exact ⟨(finalize_no_set_cookie _ _ _).1, (finalize_no_set_cookie _ _ _).2⟩
          · right
            exact ⟨(finalize_no_set_cookie _ _ _).1, (finalize_no_set_cookie _ _ _).2⟩
        · right
          exact ⟨(finalize_no_set_cookie _ _ _).1, (finalize_no_set_cookie _ _ _).2⟩
      · right
        exact ⟨(finalize_no_set_cookie _ _ _).1, (finalize_no_set_cookie _ _ _).2⟩
    · right
      exact ⟨(finalize_no_set_cookie _ _ _).1, (finalize_no_set_cookie _ _ _).2⟩
  · right
    exact ⟨(finalize_no_set_cookie _ _ _).1, (finalize_no_set_cookie _ _ _).2⟩

/-- A follow keeps `maxRedirects`, increments the hop counter by one, and
only happens while the incremented counter is within the limit. -/
theorem onProxyResponse_follow_inv (state : RequestState) (req : Req) (res : Res)
    (proxyRes : ProxyRes) (st' : RequestState) (req' : Req) (res' : Res)
    (hf : onProxyResponse state req res proxyRes = .follow st' req' res') :
    st'.maxRedirects = state.maxRedirects
  ∧ st'.redirectCount_ = state.redirectCount_ + 1
  ∧ state.redirectCount_ + 1 ≤ state.maxRedirects := by
  unfold onProxyResponse at hf
  simp only [] at hf
  split at hf
  · split at hf
    · split at hf
      · split at hf
        · split at hf
          · split at hf
            · simp only [ProxyStep.follow.injEq] at hf
              obtain ⟨h1, _h2, _h3⟩ := hf
              subst h1
              refine ⟨rfl, rfl, ?_⟩
              omega
            · exact absurd hf (by simp)
          · exact absurd hf (by simp)
        · exact absurd hf (by simp)
      · exact absurd hf (by simp)
    · exact absurd hf (by simp)
  · exact absurd hf (by simp)

/-- As long as the fuel is positive and covers the remaining redirect
budget, the forwarding loop completes. -/
theorem runProxy_isSome_of_fuel (upstream : Nat → UrlObj → ProxyRes)
    (fuel : Nat) :
    ∀ (hop : Nat) (state : RequestState) (req : Req) (res : Res),
    1 ≤ fuel → state.maxRedirects + 1 ≤ fuel + state.redirectCount_ →
    (runProxy upstream fuel hop state req res).isSome = true := by
  induction fuel with
  | zero => intro hop state req res h1 _h2; exact absurd h1 (by omega)
  | succ n ih =>
    intro hop state req res _h1 h2
    rw [runProxy]
    cases hstep : onProxyResponse state req res (upstream hop state.location) with
    | pipe h res' st' req' => simp
    | follow st' req' res' =>
      simp only []
      obtain ⟨e1, e2, e3⟩ := onProxyResponse_follow_inv _ _ _ _ _ _ _ hstep
      apply ih
      · omega
      · rw [e1, e2]
        omega

/-! ## The self-redirecting-target trace, universally -/

/-- Entries already holding the stamp value survive the rest of the stamp
trace (later stamps either touch other keys or rewrite the same value). -/
theorem stampFold_preserve (href : String) : ∀ (k c : Nat) (resH : Obj) (key : String),
    objGet resH key = some ("302 " ++ href) →
    objGet (stampFold href resH c k) key = some ("302 " ++ href) := by
  intro k
  induction k with
  | zero => intro c resH key hk; exact hk
  | succ n ih =>
    intro c resH key hk
    rw [stampFold]
    apply ih
    by_cases hkey : key = "X-CORS-Redirect-" ++ toString (c + 1)
    · subst hkey
      exact objGet_objSet_eq _ _ _
    · rw [objGet_objSet_ne _ _ _ _ hkey]
      exact hk

/-- Every stamp index in the window of a stamp trace is present with the
`302 href` value. -/
theorem stampFold_get (href : String) : ∀ (k c i : Nat) (resH : Obj),
    c < i → i ≤ c + k →
    objGet (stampFold href resH c k) ("X-CORS-Redirect-" ++ toString i)
      = some ("302 " ++ href) := by
  intro k
  induction k with
  | zero => intro c i resH h1 h2; omega
  | succ n ih =>
    intro c i resH h1 h2
    rw [stampFold]
    by_cases hi : i = c + 1
    · subst hi
      exact stampFold_preserve href n (c + 1) _ _ (objGet_objSet_eq _ _ _)
    · exact ih (c + 1) i _ (by omega) (by omega)

/-- One exchange against a target that replies `302` to a round-tripping
self-location, while the hop budget allows another follow. -/
theorem onProxyResponse_selfStep_follow (lo : UrlObj) (maxR cma : Nat) (pb : String)
    (c : Nat) (resH : Obj) (req : Req)
    (hne : lo.href ≠ "")
    (hres : urlResolve lo.href lo.href = lo.href)
    (hparse : parseURL lo.href = some lo)
    (hfo : c + 1 ≤ maxR) :
    onProxyResponse ⟨maxR, cma, lo, pb, c⟩ req ⟨false, resH⟩
        ⟨302, [("location", lo.href)]⟩
      = .follow ⟨maxR, cma, lo, pb, c + 1⟩
          { req with
            method := "GET",
            headers := objDelete (objSet req.headers "content-length" "0") "content-type" }
          ⟨false, objSet (if c = 0 then objSet resH "x-request-url" lo.href else resH)
              ("X-CORS-Redirect-" ++ toString (c + 1))
              ("302 " ++ lo.href)⟩ := by
  have h302 : (toString (302 : Nat) ++ " ") = "302 " := by decide
  have h302x : (("302" : String) ++ " ") = "302 " := by decide
  unfold onProxyResponse
  simp [objGet, hne, hres, hparse, hfo, apply_ite, h302, h302x]

/-- One exchange against the same target once the incremented hop counter
exceeds the budget: the mediator finalizes with the `Location` rewritten
through the proxy. -/
theorem onProxyResponse_selfStep_finish (lo : UrlObj) (maxR cma : Nat) (pb : String)
    (c : Nat) (resH : Obj) (req : Req)
    (hne : lo.href ≠ "")
    (hres : urlResolve lo.href lo.href = lo.href)
    (hparse : parseURL lo.href = some lo)
    (hstop : ¬ (c + 1 ≤ maxR)) :
    onProxyResponse ⟨maxR, cma, lo, pb, c⟩ req ⟨false, resH⟩
        ⟨302, [("location", lo.href)]⟩
      = .pipe
          (finalizeProxyHeaders ⟨maxR, cma, lo, pb, c + 1⟩ req
            (objSet [("location", lo.href)] "location" (pb ++ "/" ++ lo.href))).1
          ⟨false, if c = 0 then objSet resH "x-request-url" lo.href else resH⟩
          ⟨maxR, cma, lo, pb, c + 1⟩
          ⟨req.method, req.url,
            (finalizeProxyHeaders ⟨maxR, cma, lo, pb, c + 1⟩ req
              (objSet [("location", lo.href)] "location" (pb ++ "/" ++ lo.href))).2,
            req.encrypted⟩ := by
  unfold onProxyResponse
  simp [objGet, hne, hres, hparse, hstop, apply_ite]

/-- The tail of a self-redirecting run, from any counter value at least 1:
`k` more fuel is not enough, `k + 1` is exactly enough, and the outcome
carries the rewritten `Location` and the stamp trace. -/
theorem runProxy_selfRedirect_tail (lo : UrlObj) (maxR cma : Nat) (pb : String)
    (hne : lo.href ≠ "")
    (hres : urlResolve lo.href lo.href = lo.href)
    (hparse : parseURL lo.href = some lo) :
    ∀ (k c : Nat) (resH : Obj) (req : Req) (hop : Nat), c + k = maxR → 1 ≤ c →
    (runProxy selfRedirect302 k hop ⟨maxR, cma, lo, pb, c⟩ req ⟨false, resH⟩ = none)
    ∧ ∃ o, runProxy selfRedirect302 (k + 1) hop ⟨maxR, cma, lo, pb, c⟩ req ⟨false, resH⟩
          = some o
        ∧ o.exchanges = hop + (k + 1)
        ∧ o.statusCode = 302
        ∧ objGet o.proxyResHeaders "location" = some (pb ++ "/" ++ lo.href)
        ∧ o.res.headers = stampFold lo.href resH c k := by
  intro k
  induction k with
  | zero =>
    intro c resH req hop hck hc1
    constructor
    · rfl
    · have hstop : ¬ (c + 1 ≤ maxR) := by omega
      have hc0 : ¬ (c = 0) := by omega
      rw [runProxy]
      simp only [selfRedirect302]
      rw [onProxyResponse_selfStep_finish lo maxR cma pb c resH req hne hres hparse hstop]
      refine ⟨_, rfl, rfl, rfl, ?_, by simp [hc0, stampFold]⟩
      rw [finalize_location, objGet_objSet_eq]
  | succ n ih =>
    intro c resH req hop hck hc1
    have hfo : c + 1 ≤ maxR := by omega
    have hc0 : ¬ (c = 0) := by omega
    constructor
    · rw [runProxy]
      simp only [selfRedirect302]
      rw [onProxyResponse_selfStep_follow lo maxR cma pb c resH req hne hres hparse hfo]
      rw [if_neg hc0]
      exact (ih (c + 1) _ _ (hop + 1) (by omega) (by omega)).1
    · rw [runProxy]
      simp only [selfRedirect302]
      rw [onProxyResponse_selfStep_follow lo maxR cma pb c resH req hne hres hparse hfo]
      rw [if_neg hc0]
      obtain ⟨o, ho, he, hs, hl, hh⟩ := (ih (c + 1) _ _ (hop + 1) (by omega) (by omega)).2
      refine ⟨o, ho, by omega, hs, hl, ?_⟩
      rw [hh, stampFold]

/-- A whole self-redirecting run from a fresh admitted state: `maxR` fuel
does not complete, `maxR + 1` does, with exactly `maxR` follows stamped
`1 .. maxR` and the final `302` carrying the proxy-rewritten `Location`. -/
theorem runProxy_selfRedirect_main (lo : UrlObj) (maxR cma : Nat) (pb : String)
    (req : Req)
    (hres : urlResolve lo.href lo.href = lo.href)
    (hparse : parseURL lo.href = some lo) :
    (runProxy selfRedirect302 maxR 0 ⟨maxR, cma, lo, pb, 0⟩ req ⟨false, []⟩ = none)
    ∧ ∃ o, runProxy selfRedirect302 (maxR + 1) 0 ⟨maxR, cma, lo, pb, 0⟩ req ⟨false, []⟩
          = some o
        ∧ o.exchanges = maxR + 1
        ∧ o.statusCode = 302
        ∧ objGet o.proxyResHeaders "location" = some (pb ++ "/" ++ lo.href)
        ∧ (∀ i, 1 ≤ i → i ≤ maxR →
            objGet o.res.headers ("X-CORS-Redirect-" ++ toString i)
              = some ("302 " ++ lo.href)) := by
  have hne : lo.href ≠ "" := by
    intro hempty
    rw [hempty] at hparse
    exact Option.noConfusion ((by decide : parseURL "" = none) ▸ hparse)
  cases maxR with
  | zero =>
    constructor
    · rfl
    · rw [runProxy]
      simp only [selfRedirect302]
      rw [onProxyResponse_selfStep_finish lo 0 cma pb 0 [] req hne hres hparse (by omega)]
      refine ⟨_, rfl, rfl, rfl, ?_, ?_⟩
      · rw [finalize_location, objGet_objSet_eq]
      · intro i h1 h2
        exact absurd (h1.trans h2) (by decide)
  | succ n =>
    constructor
    · rw [runProxy]
      simp only [selfRedirect302]
      rw [onProxyResponse_selfStep_follow lo (n + 1) cma pb 0 [] req hne hres hparse
        (by omega)]
      rw [if_pos rfl]
      exact (runProxy_selfRedirect_tail lo (n + 1) cma pb hne hres hparse n 1 _ _ 1
        (by omega) (by omega)).1
    · rw [runProxy]
      simp only [selfRedirect302]
      rw [onProxyResponse_selfStep_follow lo (n + 1) cma pb 0 [] req hne hres hparse
        (by omega)]
      rw [if_pos rfl]
      obtain ⟨o, ho, he, hs, hl, hh⟩ := (runProxy_selfRedirect_tail lo (n + 1) cma pb
        hne hres hparse n 1 _ _ 1 (by omega) (by omega)).2
      refine ⟨o, ho, by omega, hs, hl, ?_⟩
      intro i h1 hi
      rw [hh]
      by_cases hi1 : i = 1
      · subst hi1
        apply stampFold_preserve
        exact objGet_objSet_eq _ _ _
      · exact stampFold_get _ n 1 i _ (by omega) (by omega)

/-! ## Claim theorems -/

/-- Claim C4 counterexample: the claim says `parse("http:/x")` yields
`null`, but the source first rewrites the collapsed `http:/` to `http://`,
so `parseURL "http:/x"` yields a Target (with hostname `x`). -/
theorem parseURL_single_slash_x_not_null :
    parseURL "http:/x" ≠ none ∧ (parseURL "http:/x").map UrlObj.hostname = some "x" := by
  decide

/-- Claim C4 (amended): `parse("example.com/a?b")`, `parse("//example.com/a")`,
`parse("http://example.com")` and `parse("http:/example.com")` each yield a
Target with hostname `example.com`, all equal up to path;
`parse("http://:1/")` yields `null`; but `parse("http:/x")` yields a
non-null Target with hostname `x` (the collapsed-slash repair rewrites it
to `http://x` before the ambiguity check). -/
theorem parseURL_extractor_cases :
    ((parseURL "example.com/a?b").map UrlObj.hostname = some "example.com")
  ∧ ((parseURL "//example.com/a").map UrlObj.hostname = some "example.com")
  ∧ ((parseURL "http://example.com").map UrlObj.hostname = some "example.com")
  ∧ ((parseURL "http:/example.com").map UrlObj.hostname = some "example.com")
  ∧ ((parseURL "example.com/a?b").map targetCore
      = (parseURL "//example.com/a").map targetCore)
  ∧ ((parseURL "//example.com/a").map targetCore
      = (parseURL "http://example.com").map targetCore)
  ∧ ((parseURL "http://example.com").map targetCore
      = (parseURL "http:/example.com").map targetCore)
  ∧ parseURL "http://:1/" = none
  ∧ ((parseURL "http:/x").map UrlObj.hostname = some "x") := by
  decide

/-- Claim C7 counterexample: after `withCORS` returns,
`access-control-allow-credentials` is present, but the
`access-control-expose-headers` value is not the comma-joined list of all
header names present in the returned mapping — the expose list is
computed before the credentials (and expose) entries are added. -/
theorem expose_headers_misses_credentials :
    objGet (withCORS [] corsReqGet 0).1 "access-control-allow-credentials" = some "true"
  ∧ objGet (withCORS [] corsReqGet 0).1 "access-control-expose-headers"
      ≠ some (String.intercalate "," (objKeys (withCORS [] corsReqGet 0).1)) := by
  decide

/-- Claim C7 (amended): for every header mapping and request, `withCORS`
returns a mapping with `access-control-allow-origin` set to `*` and
`access-control-allow-credentials` set to `true`, and with
`access-control-expose-headers` equal to the comma-joined list of the
header names present at the moment that entry is computed — i.e. the keys
of the mapping before the expose-headers and allow-credentials entries
themselves are added. -/
theorem withCORS_header_synthesis (h : Obj) (req : Req) (c : Nat) :
    objGet (withCORS h req c).1 "access-control-allow-origin" = some "*"
  ∧ objGet (withCORS h req c).1 "access-control-allow-credentials" = some "true"
  ∧ objGet (withCORS h req c).1 "access-control-expose-headers"
      = some (String.intercalate "," (objKeys (withCORSPre h req c).1)) := by
  refine ⟨?_, ?_, ?_⟩
  · unfold withCORS
    rw [objGet_objSet_ne _ _ _ _ (by decide), objGet_objSet_ne _ _ _ _ (by decide)]
    exact objGet_withCORSPre_acao h req c
  · unfold withCORS
    rw [objGet_objSet_eq]
  · unfold withCORS
    rw [objGet_objSet_ne _ _ _ _ (by decide), objGet_objSet_eq]

/-- Claim C1: evaluated at the failing input, the target-blacklist gate of
the source (`hostname !== domain || hostname.endsWith('.' + domain)`
inside a negated `some`) lets the subdomain request `/sub.evil.com/x`
proceed to forwarding, while the claim (and the option's own
documentation, "Requests to these targets will be blocked") requires a
`403`; the exact match `/evil.com/x` is rejected with `403` naming
`evil.com`, and `/notevil.com/x` proceeds. -/
theorem target_blacklist_subdomain_not_rejected :
    (getHandler blacklistCfg (plainReq "/sub.evil.com/x")).isForward = true
  ∧ (getHandler blacklistCfg (plainReq "/evil.com/x")).statusOf = some 403
  ∧ (getHandler blacklistCfg (plainReq "/evil.com/x")).bodyOf
      = some "The target URL hostname \"evil.com\" is not allowed by this proxy."
  ∧ (getHandler blacklistCfg (plainReq "/notevil.com/x")).isForward = true := by
  decide

/-- Claim C9 counterexample: with a hook that returns truthy on every
request, an `OPTIONS` request is still answered by the built-in preflight
reply — the `OPTIONS` check runs before `handleInitialRequest`, so the
hook is not consulted and the built-in check is not skipped. -/
theorem options_preflight_precedes_hook :
    (getHandler hookCfg optionsReq).statusOf = some 200
  ∧ getHandler hookCfg optionsReq ≠ .hookHandled := by
  decide

/-- Claim C9 (amended): for every non-`OPTIONS` request on which the
configured `handleInitialRequest` hook returns truthy, the hook is invoked
with the parsed Target and every subsequent built-in check (help page,
probe path, port, hostname, required headers, origin and target policies,
rate limit, same-origin offload) is skipped; the `OPTIONS` preflight
check, however, runs first. -/
theorem initial_request_hook_short_circuits (cfg : Config) (req : Req)
    (f : Req → Option UrlObj → Bool)
    (hf : cfg.handleInitialRequest = some f)
    (hm : req.method ≠ "OPTIONS")
    (ht : f { req with headers := (withCORS [] req cfg.corsMaxAge).2 }
            (parseURL (strDrop req.url 1)) = true) :
    getHandler cfg req = .hookHandled := by
  unfold getHandler
  rw [hf]
  simp [hm, ht]

/-- Claim C9 witness. -/
theorem initial_request_hook_short_circuits_witness :
    getHandler hookCfg (plainReq "/example.com") = .hookHandled :=
  initial_request_hook_short_circuits hookCfg (plainReq "/example.com")
    (fun _r _l => true) rfl (by decide) rfl

/-- Claim C5 counterexample: a non-`OPTIONS` request that violates both
the required-header policy and the origin blacklist is answered `200 "no"`
— not the claimed `400` — when it targets the reserved probe path, because
the `iscorsneeded` check runs before either policy check.  (The same holds
for any request stopped by the port or hostname checks.) -/
theorem probe_path_bypasses_policy_checks :
    hasRequiredHeaders (normalizeRequireHeader orderingCfg.requireHeader)
        (withCORS [] orderingProbeReq orderingCfg.corsMaxAge).2 = false
  ∧ ((objGet (withCORS [] orderingProbeReq orderingCfg.corsMaxAge).2 "origin").getD ""
        ∈ orderingCfg.originBlacklist)
  ∧ (getHandler orderingCfg orderingProbeReq).statusOf = some 200
  ∧ (getHandler orderingCfg orderingProbeReq).bodyOf = some "no" := by
  decide

/-- Claim C5 (amended): for every non-`OPTIONS` request that reaches the
required-header check (no hook configured, target extracts, not the probe
path, port in range, hostname routable) and violates both the
required-header policy and the origin blacklist, the gate rejects it for
the required-header reason with status `400`, not `403`: the
required-header check is evaluated strictly before the origin blacklist
check and the first rejecting check wins. -/
theorem require_header_check_precedes_origin_blacklist (cfg : Config) (req : Req)
    (loc : UrlObj)
    (hm : req.method ≠ "OPTIONS")
    (hhook : cfg.handleInitialRequest = none)
    (hloc : parseURL (strDrop req.url 1) = some loc)
    (hprobe : loc.host ≠ "iscorsneeded")
    (hport : portTooLarge loc = false)
    (hhost : explicitSchemeStart req.url = true ∨ isValidHostName loc.hostname = true)
    (hreq : hasRequiredHeaders (normalizeRequireHeader cfg.requireHeader)
        (withCORS [] req cfg.corsMaxAge).2 = false)
    (_horigin : ((objGet (withCORS [] req cfg.corsMaxAge).2 "origin").getD "")
        ∈ cfg.originBlacklist) :
    getHandler cfg req
      = .response 400 "Header required" (withCORS [] req cfg.corsMaxAge).1
          ("Missing required request header. Must specify one of: "
            ++ String.intercalate "," ((normalizeRequireHeader cfg.requireHeader).getD [])) := by
  rw [getHandler_reaches_admitTarget cfg req loc hm hhook hloc]
  unfold admitTarget
  rcases hhost with hh | hh <;>
    simp [hprobe, hport, hreq, hh]

/-- Claim C5 witness. -/
theorem require_header_check_precedes_origin_blacklist_witness :
    getHandler orderingCfg orderingPlainReq
      = .response 400 "Header required"
          (withCORS [] orderingPlainReq orderingCfg.corsMaxAge).1
          ("Missing required request header. Must specify one of: "
            ++ String.intercalate ","
              ((normalizeRequireHeader orderingCfg.requireHeader).getD [])) :=
  require_header_check_precedes_origin_blacklist orderingCfg orderingPlainReq
    ⟨"http:", "example.com", none, "example.com", "/x", "", "/x", "http://example.com/x"⟩
    (by decide) rfl (by decide) (by decide) (by decide) (Or.inr (by decide))
    (by decide) (by decide)

/-- Claim C10: for every non-`OPTIONS` request without an `Origin` header
that reaches the origin checks, the gate evaluates the whole
origin-dependent phase with the empty string as the origin; in particular
an `""` blacklist entry rejects it with `403`, a non-empty whitelist not
containing `""` rejects it with `403`, and the rate-limit checker is
invoked with `""`, its message surfacing in the `429` body. -/
theorem absent_origin_treated_as_empty_string (cfg : Config) (req : Req)
    (loc : UrlObj)
    (hm : req.method ≠ "OPTIONS")
    (hhook : cfg.handleInitialRequest = none)
    (hloc : parseURL (strDrop req.url 1) = some loc)
    (hprobe : loc.host ≠ "iscorsneeded")
    (hport : portTooLarge loc = false)
    (hhost : explicitSchemeStart req.url = true ∨ isValidHostName loc.hostname = true)
    (hreq : hasRequiredHeaders (normalizeRequireHeader cfg.requireHeader)
        (withCORS [] req cfg.corsMaxAge).2 = true)
    (horigin : objGet req.headers "origin" = none) :
    (getHandler cfg req
        = originPhase cfg (withCORS [] req cfg.corsMaxAge).1
            { req with headers := (withCORS [] req cfg.corsMaxAge).2 } loc "")
  ∧ ("" ∈ cfg.originBlacklist →
      getHandler cfg req
        = .response 403 "Forbidden" (withCORS [] req cfg.corsMaxAge).1
            "The origin \"\" was blacklisted by the operator of this proxy.")
  ∧ ("" ∉ cfg.originBlacklist → cfg.originWhitelist ≠ [] →
      "" ∉ cfg.originWhitelist →
      getHandler cfg req
        = .response 403 "Forbidden" (withCORS [] req cfg.corsMaxAge).1
            "The origin \"\" was not whitelisted by the operator of this proxy.")
  ∧ (∀ f m, cfg.checkRateLimit = some f → f "" = some m → m ≠ "" →
      "" ∉ cfg.originBlacklist →
      (cfg.originWhitelist = [] ∨ "" ∈ cfg.originWhitelist) →
      targetBlacklistRejects cfg.targetBlacklist loc.hostname = false →
      targetWhitelistRejects cfg.targetWhitelist loc.hostname = false →
      getHandler cfg req
        = .response 429 "Too Many Requests" (withCORS [] req cfg.corsMaxAge).1
            ("The origin \"\" has sent too many requests.\n" ++ m)) := by
  have hgetOrigin : objGet (withCORS [] req cfg.corsMaxAge).2 "origin" = none := by
    rw [objGet_withCORS_snd _ _ _ _ (by decide) (by decide)]
    exact horigin
  have hmain : getHandler cfg req
      = originPhase cfg (withCORS [] req cfg.corsMaxAge).1
          { req with headers := (withCORS [] req cfg.corsMaxAge).2 } loc "" := by
    rw [getHandler_reaches_admitTarget cfg req loc hm hhook hloc]
    unfold admitTarget
    rcases hhost with hh | hh <;>
      simp [hprobe, hport, hreq, hh, hgetOrigin]
  refine ⟨hmain, ?_, ?_, ?_⟩
  · intro hbl
    rw [hmain]
    unfold originPhase
    simp [hbl]
  · intro hbl hwne hwl
    rw [hmain]
    unfold originPhase
    simp [hbl, hwne, hwl]
  · intro f m hcf hfm hmne hbl hwl htb htw
    rw [hmain]
    unfold originPhase
    rcases hwl with hw | hw <;>
      simp [hbl, hw, hcf, hfm, hmne, htb, htw, truthy]

/-- Claim C10 witness. -/
theorem absent_origin_treated_as_empty_string_witness :
    getHandler { originBlacklist := [""] } (plainReq "/example.com")
      = .response 403 "Forbidden"
          (withCORS [] (plainReq "/example.com")
            (Config.corsMaxAge { originBlacklist := [""] })).1
          "The origin \"\" was blacklisted by the operator of this proxy." :=
  (absent_origin_treated_as_empty_string { originBlacklist := [""] }
      (plainReq "/example.com")
      ⟨"http:", "example.com", none, "example.com", "/", "", "/", "http://example.com/"⟩
      (by decide) rfl (by decide) (by decide) (by decide) (Or.inr (by decide))
      (by decide) (by decide)).2.1 (by decide)

/-- Claim C3: an upstream `307` or `308` response is never auto-followed,
regardless of the current redirect count; the response is finalized for
the client immediately, and when the `Location` header is syntactically
valid it is rewritten to the proxy's own base URL plus the absolute
resolved target. -/
theorem redirect_307_308_never_followed (state : RequestState) (req : Req)
    (res : Res) (proxyRes : ProxyRes)
    (h307 : proxyRes.statusCode = 307 ∨ proxyRes.statusCode = 308) :
    (onProxyResponse state req res proxyRes).isFollow = false
  ∧ (∀ lh, objGet proxyRes.headers "location" = some lh → lh ≠ "" →
      (parseURL (urlResolve state.location.href lh)).isSome = true →
      objGet (onProxyResponse state req res proxyRes).pipedHeaders "location"
        = some (state.proxyBaseUrl ++ "/" ++ urlResolve state.location.href lh)) := by
  have hnotfollow : ¬(proxyRes.statusCode = 301 ∨ proxyRes.statusCode = 302
      ∨ proxyRes.statusCode = 303) := by
    rcases h307 with h | h <;> omega
  have hredir : proxyRes.statusCode = 301 ∨ proxyRes.statusCode = 302
      ∨ proxyRes.statusCode = 303 ∨ proxyRes.statusCode = 307
      ∨ proxyRes.statusCode = 308 := by
    rcases h307 with h | h <;> simp [h]
  constructor
  · unfold onProxyResponse
    simp only [if_neg hnotfollow]
    repeat' split
    all_goals rfl
  · intro lh hlh hne hsome
    obtain ⟨pl, hpl⟩ := Option.isSome_iff_exists.mp hsome
    unfold onProxyResponse
    simp only [if_neg hnotfollow, if_pos hredir, hlh, if_pos hne, hpl]
    rw [ProxyStep.pipedHeaders, finalize_location, objGet_objSet_eq]

/-- Claim C3 witness. -/
theorem redirect_307_308_never_followed_witness :
    (onProxyResponse tinyState tinyReq ⟨false, []⟩
        ⟨307, [("location", "http://x/next")]⟩).isFollow = false
  ∧ objGet (onProxyResponse tinyState tinyReq ⟨false, []⟩
        ⟨307, [("location", "http://x/next")]⟩).pipedHeaders "location"
      = some (tinyState.proxyBaseUrl ++ "/"
          ++ urlResolve tinyState.location.href "http://x/next") :=
  ⟨(redirect_307_308_never_followed tinyState tinyReq ⟨false, []⟩
      ⟨307, [("location", "http://x/next")]⟩ (Or.inl rfl)).1,
   (redirect_307_308_never_followed tinyState tinyReq ⟨false, []⟩
      ⟨307, [("location", "http://x/next")]⟩ (Or.inl rfl)).2
     "http://x/next" (by decide) (by decide) (by decide)⟩

/-- Claim C6: whenever `onProxyResponse` pipes an upstream response
through to the client — any status, any redirect count — the piped
headers contain neither `set-cookie` nor `set-cookie2`, even when the
target response set them. -/
theorem set_cookie_never_piped (state : RequestState) (req : Req) (res : Res)
    (proxyRes : ProxyRes) (h : Obj) (res' : Res) (st' : RequestState) (req' : Req)
    (hp : onProxyResponse state req res proxyRes = .pipe h res' st' req') :
    objGet h "set-cookie" = none ∧ objGet h "set-cookie2" = none := by
  rcases onProxyResponse_no_cookie state req res proxyRes with hf | hok
  · rw [hp] at hf
    exact absurd hf (by simp [ProxyStep.isFollow])
  · rw [hp] at hok
    exact hok

/-- Claim C6 witness. -/
theorem set_cookie_never_piped_witness :
    objGet cookiePipedHeaders "set-cookie" = none
  ∧ objGet cookiePipedHeaders "set-cookie2" = none :=
  set_cookie_never_piped tinyState tinyReq ⟨false, []⟩ cookieProxyRes
    cookiePipedHeaders ⟨false, [("x-request-url", "http://x/")]⟩ tinyState tinyReq
    (by decide)

/-- Claim C2: for every admitted request whose target always replies
`302` to itself — i.e. for every `maxRedirects`, `corsMaxAge`,
`proxyBaseUrl` and request, and every extracted target location whose
self-`Location` resolves and re-extracts to itself (the round-trip
property of the extractor's outputs; an admitted state is exactly
`⟨maxRedirects, corsMaxAge, location, proxyBaseUrl, 0⟩`) — the forwarding
engine follows exactly `maxRedirects` hops (with `maxRedirects` fuel the
run is incomplete, with `maxRedirects + 1` it finishes in
`maxRedirects + 1` outbound exchanges), stamps
`X-CORS-Redirect-1` … `X-CORS-Redirect-maxRedirects` each recording the
`302` and the absolute location, and then pipes the final `302` to the
client with its `Location` rewritten to
`proxyBaseUrl + '/' + absolute-location`.  At the concrete admitted
request `GET /example.com` the stamp keys appear in increasing order
after `x-request-url`.  And for every upstream behaviour whatsoever, a
fresh exchange completes within `maxRedirects + 1` outbound exchanges, so
redirect following terminates even on cyclic `Location` chains. -/
theorem redirect_loop_bounded_and_hop_trace :
    (getHandler {} (plainReq "/example.com")
        = .forward selfRedirectState (plainReq "/example.com"))
  ∧ selfRedirectRun.map FinalOutcome.exchanges = some 6
  ∧ selfRedirectRun.map FinalOutcome.statusCode = some 302
  ∧ (selfRedirectRun.bind (fun o => objGet o.proxyResHeaders "location"))
      = some "http://proxy.test/http://example.com/"
  ∧ (selfRedirectRun.map (fun o => objKeys o.res.headers))
      = some ["x-request-url", "X-CORS-Redirect-1", "X-CORS-Redirect-2",
              "X-CORS-Redirect-3", "X-CORS-Redirect-4", "X-CORS-Redirect-5"]
  ∧ (∀ (maxR cma : Nat) (pb : String) (lo : UrlObj) (req : Req),
      urlResolve lo.href lo.href = lo.href →
      parseURL lo.href = some lo →
      (runProxy selfRedirect302 maxR 0 ⟨maxR, cma, lo, pb, 0⟩ req ⟨false, []⟩ = none)
      ∧ ∃ o, runProxy selfRedirect302 (maxR + 1) 0 ⟨maxR, cma, lo, pb, 0⟩ req
            ⟨false, []⟩ = some o
        ∧ o.exchanges = maxR + 1
        ∧ o.statusCode = 302
        ∧ objGet o.proxyResHeaders "location" = some (pb ++ "/" ++ lo.href)
        ∧ (∀ i, 1 ≤ i → i ≤ maxR →
            objGet o.res.headers ("X-CORS-Redirect-" ++ toString i)
              = some ("302 " ++ lo.href)))
  ∧ (∀ (upstream : Nat → UrlObj → ProxyRes) (hop : Nat) (state : RequestState)
      (req : Req) (res : Res), state.redirectCount_ = 0 →
      (runProxy upstream (state.maxRedirects + 1) hop state req res).isSome = true) := by
  refine ⟨by decide, by decide, by decide, by decide, by decide, ?_, ?_⟩
  · intro maxR cma pb lo req hresolve hp
    exact runProxy_selfRedirect_main lo maxR cma pb req hresolve hp
  · intro upstream hop state req res h0
    apply runProxy_isSome_of_fuel
    · omega
    · rw [h0]

/-- Claim C2 witness. -/
theorem redirect_loop_bounded_witness :
    (runProxy selfRedirect302 5 0 ⟨5, 0, selfRedirectState.location, "http://proxy.test", 0⟩
        (plainReq "/example.com") ⟨false, []⟩ = none)
  ∧ (runProxy selfRedirect302 (selfRedirectState.maxRedirects + 1) 0
      selfRedirectState (plainReq "/example.com") ⟨false, []⟩).isSome = true :=
  ⟨(redirect_loop_bounded_and_hop_trace.2.2.2.2.2.1 5 0 "http://proxy.test"
      selfRedirectState.location (plainReq "/example.com") (by decide) (by decide)).1,
   redirect_loop_bounded_and_hop_trace.2.2.2.2.2.2 selfRedirect302 0
     selfRedirectState (plainReq "/example.com") ⟨false, []⟩ rfl⟩

/-- Claim C8: the default proxy `error` listener ends the response with no
further body when headers were already sent; otherwise it discards every
header set so far and answers `404` — never `500` — with the minimal CORS
header and a plain-text body naming the underlying error. -/
theorem proxy_error_fallback (res : Res) (we : Bool) (err : String) :
    (res.headersSent = true →
      proxyErrorHandler res we err = .endResponse
      ∨ proxyErrorHandler res we err = .alreadyEnded)
  ∧ (res.headersSent = false →
      proxyErrorHandler res we err
        = .respond 404 [("Access-Control-Allow-Origin", "*")]
            ("Not found because of proxy error: " ++ err))
  ∧ (proxyErrorHandler res we err).statusOf ≠ some 500 := by
  refine ⟨?_, ?_, ?_⟩
  · intro hs
    unfold proxyErrorHandler
    cases we <;> simp [hs]
  · intro hs
    unfold proxyErrorHandler
    simp [hs, foldl_objDelete_objKeys, objSet]
  · unfold proxyErrorHandler
    by_cases hs : res.headersSent = true
    · cases we <;> simp [hs, ErrorAction.statusOf]
    · have hs' : res.headersSent = false := by simpa using hs
      simp [hs', ErrorAction.statusOf]

/-- Claim C8 witness. -/
theorem proxy_error_fallback_witness :
    proxyErrorHandler ⟨false, [("x-foo", "1")]⟩ false "boom"
      = .respond 404 [("Access-Control-Allow-Origin", "*")]
          ("Not found because of proxy error: " ++ "boom") :=
  (proxy_error_fallback ⟨false, [("x-foo", "1")]⟩ false "boom").2.1 rfl

end CorsAnywhere
